import Mathlib

/-!
Shallow embedding of the Alkoteka catalog spider (spiders/alkoteka_parser.py)
and proofs checking the specification claims against it.

Upstream JSON payloads are modelled by the `JVal` type; Python dictionaries by
association lists; Python floats by rationals; fallible Python code by
`Except PyErr`.  The normalizer `format_product_data` and the response handlers
`parse_total_items`, `parse_api` and `parse_product_detail` are translated
field by field from the source.
-/

set_option autoImplicit false

/-- Errors a piece of translated Python code can raise. -/
inductive PyErr where
  | typeError
  | valueError
  | attributeError
  | keyError
deriving DecidableEq

/-- JSON-ish Python values. Floats are modelled by rationals. -/
inductive JVal where
  | null
  | bool (b : Bool)
  | int (n : Int)
  | float (q : Rat)
  | str (s : String)
  | arr (xs : List JVal)
  | obj (kvs : List (String × JVal))

/-- First binding of key `k`, as `dict.__getitem__` / `dict.get` see it. -/
def pyGetOpt : List (String × JVal) → String → Option JVal
  | [], _ => none
  | kv :: rest, k => if kv.1 = k then some kv.2 else pyGetOpt rest k

/-- Python `dict.get`: the bound value, or the default `d` when `k` is absent. -/
def pyGetD (kvs : List (String × JVal)) (k : String) (d : JVal) : JVal :=
  (pyGetOpt kvs k).getD d

/-- Python dictionary assignment: replace the first binding of `k`, or append a new one. -/
def pyDictSet : List (String × JVal) → String → JVal → List (String × JVal)
  | [], k, v => [(k, v)]
  | kv :: rest, k, v => if kv.1 = k then (kv.1, v) :: rest else kv :: pyDictSet rest k v

/-- Python truthiness of a value. -/
def pyTruthy : JVal → Bool
  | .null => false
  | .bool b => b
  | .int n => !(n == 0)
  | .float q => !(q == 0)
  | .str s => !(s == "")
  | .arr xs => !xs.isEmpty
  | .obj kvs => !kvs.isEmpty

/-- Python `or`: the first operand when truthy, else the second. -/
def pyOr (a b : JVal) : JVal :=
  if pyTruthy a then a else b

/-- Python `==` against a string literal: only equal strings compare equal. -/
def jEqStr : JVal → String → Bool
  | .str s, t => s == t
  | _, _ => false

/-- Iterating a Python value: lists yield elements, strings yield one-character
strings, dicts yield their keys; other values raise `TypeError`. -/
def pyIter : JVal → Except PyErr (List JVal)
  | .arr xs => .ok xs
  | .str s => .ok (s.toList.map (fun c => .str (String.mk [c])))
  | .obj kvs => .ok (kvs.map (fun kv => .str kv.1))
  | _ => .error .typeError

mutual

/-- Structural equality of values, used for dictionary keys. -/
def jvalBeq : JVal → JVal → Bool
  | .null, .null => true
  | .bool a, .bool b => a == b
  | .int a, .int b => a == b
  | .float a, .float b => a == b
  | .str a, .str b => a == b
  | .arr a, .arr b => jvalListBeq a b
  | .obj a, .obj b => jvalObjBeq a b
  | _, _ => false

def jvalListBeq : List JVal → List JVal → Bool
  | [], [] => true
  | a :: as, b :: bs => jvalBeq a b && jvalListBeq as bs
  | _, _ => false

def jvalObjBeq : List (String × JVal) → List (String × JVal) → Bool
  | [], [] => true
  | (ka, va) :: as, (kb, vb) :: bs => ka == kb && jvalBeq va vb && jvalObjBeq as bs
  | _, _ => false

end

/-- Hashable Python values (usable as dictionary keys). -/
def pyHashable : JVal → Bool
  | .arr _ => false
  | .obj _ => false
  | _ => true

/-- Numeric value of a list of decimal digits. -/
def digitsToNat (cs : List Char) : Nat :=
  cs.foldl (fun a c => a * 10 + (c.toNat - 48)) 0

/-- Digits of an integer literal with single underscores allowed between
digits, as `int(str)` accepts; `none` when malformed. -/
def stripUnders : List Char → Option (List Char)
  | [] => some []
  | ['_'] => none
  | '_' :: c :: rest => if c.isDigit then stripUnders (c :: rest) else none
  | c :: rest => if c.isDigit then (stripUnders rest).map (c :: ·) else none

/-- One or more digits, with underscore separators, starting with a digit. -/
def parseUDigits (cs : List Char) : Option Nat :=
  match cs with
  | [] => none
  | c :: _ => if c.isDigit then (stripUnders cs).map digitsToNat else none

/-- Whitespace stripping on both ends (`str.strip()` on the ASCII subset). -/
def trimChars (cs : List Char) : List Char :=
  ((cs.dropWhile Char.isWhitespace).reverse.dropWhile Char.isWhitespace).reverse

/-- Python `int(s)` on decimal strings: optional surrounding whitespace and
sign, then digits; `none` models the `ValueError`. -/
def pyIntOfString (s : String) : Option Int :=
  match trimChars s.toList with
  | '+' :: rest => (parseUDigits rest).map (fun n => (n : Int))
  | '-' :: rest => (parseUDigits rest).map (fun n => -(n : Int))
  | cs => (parseUDigits cs).map (fun n => (n : Int))

/-- Magnitude of a float literal: `digits [. digits]` or `. digits`
(exponent forms and underscores of `float(str)` are not modelled; no claim
depends on them). -/
def parseFloatMag (cs : List Char) : Option Rat :=
  let ip := cs.takeWhile Char.isDigit
  let rest := cs.dropWhile Char.isDigit
  match rest with
  | [] => if ip.isEmpty then none else some ((digitsToNat ip : Int) : Rat)
  | '.' :: frac =>
      let fd := frac.takeWhile Char.isDigit
      let rest2 := frac.dropWhile Char.isDigit
      if rest2.isEmpty && (!ip.isEmpty || !fd.isEmpty) then
        some (((digitsToNat ip : Int) : Rat) + ((digitsToNat fd : Int) : Rat) / ((10 : Rat) ^ fd.length))
      else none
  | _ => none

/-- Python `float(s)` on plain decimal strings. -/
def pyFloatOfString (s : String) : Option Rat :=
  match trimChars s.toList with
  | '+' :: rest => parseFloatMag rest
  | '-' :: rest => (parseFloatMag rest).map (fun q => -q)
  | cs => parseFloatMag cs

/-- Python `float(x)`: numbers and booleans convert, decimal strings parse,
everything else raises. -/
def pyFloat : JVal → Except PyErr Rat
  | .int n => .ok (n : Rat)
  | .float q => .ok q
  | .bool b => .ok (if b then 1 else 0)
  | .str s =>
      match pyFloatOfString s with
      | some q => .ok q
      | none => .error .valueError
  | _ => .error .typeError

/-- Python `round` to an integer: nearest integer, ties to the even one. -/
def pyRound (q : Rat) : Int :=
  let f : Int := ⌊q⌋
  let r : Rat := q - (f : Rat)
  if r < 1 / 2 then f
  else if r > 1 / 2 then f + 1
  else if f % 2 = 0 then f else f + 1

mutual

/-- Python `str(x)` (float formatting is abstracted; containers use
`repr`-style element rendering). -/
def pyStrAux : Bool → JVal → String
  | r, .str s => if r then "\x27" ++ s ++ "\x27" else s
  | _, .null => "None"
  | _, .bool true => "True"
  | _, .bool false => "False"
  | _, .int n => toString n
  | _, .float q => if q.den = 1 then toString q.num ++ ".0" else toString q.num ++ "/" ++ toString q.den
  | _, .arr xs => "[" ++ pyStrList xs ++ "]"
  | _, .obj kvs => "\x7b" ++ pyStrObj kvs ++ "\x7d"

def pyStrList : List JVal → String
  | [] => ""
  | [x] => pyStrAux true x
  | x :: xs => pyStrAux true x ++ ", " ++ pyStrList xs

def pyStrObj : List (String × JVal) → String
  | [] => ""
  | [(k, v)] => "\x27" ++ k ++ "\x27: " ++ pyStrAux true v
  | (k, v) :: kvs => "\x27" ++ k ++ "\x27: " ++ pyStrAux true v ++ ", " ++ pyStrObj kvs

end

/-- Python `str(x)`. -/
def pyStr (v : JVal) : String :=
  pyStrAux false v

/-- Python string join with separator `sep`, over already-extracted strings. -/
def joinWith (sep : String) : List String → String
  | [] => ""
  | [s] => s
  | s :: rest => s ++ sep ++ joinWith sep rest

/-- Python string join on arbitrary values: raises `TypeError` on a non-string. -/
def pyJoin (sep : String) : List JVal → Except PyErr String
  | [] => .ok ""
  | [.str s] => .ok s
  | .str s :: rest => (pyJoin sep rest).map (fun r => s ++ sep ++ r)
  | _ => .error .typeError

/-! ### HTML cleaning (description extraction)

Models the break-tag substitution (regex `<br\\s*/?>` replaced by a newline),
the tag-removal substitution (regex `<[^>]+>` removed), `html.unescape` (on
the common named entities and decimal numeric references) and `str.strip`.  The scanners advance one character on a
failed match, like the regex engine; recursion is bounded by a fuel
argument initialised to the length of the input, which each step exceeds. -/

/-- After a `<`, match the rest of a `<br\\s*/?>` tag; returns the remainder. -/
def matchBr (cs : List Char) : Option (List Char) :=
  match cs with
  | 'b' :: 'r' :: rest =>
      match rest.dropWhile Char.isWhitespace with
      | '/' :: '>' :: r => some r
      | '>' :: r => some r
      | _ => none
  | _ => none

/-- Replace every `<br\\s*/?>` by a newline, scanning left to right. -/
def subBrAux : Nat → List Char → List Char
  | 0, cs => cs
  | _ + 1, [] => []
  | fuel + 1, c :: rest =>
      if c = '<' then
        match matchBr rest with
        | some r => '\n' :: subBrAux fuel r
        | none => c :: subBrAux fuel rest
      else c :: subBrAux fuel rest

/-- Position after the first `>`, if any. -/
def tagEnd : List Char → Option (List Char)
  | [] => none
  | c :: rest => if c = '>' then some rest else tagEnd rest

/-- After a `<`, match the rest of a `<[^>]+>` tag; returns the remainder. -/
def matchTag (cs : List Char) : Option (List Char) :=
  match cs with
  | [] => none
  | c :: rest => if c = '>' then none else tagEnd rest

/-- Remove every `<[^>]+>` tag, scanning left to right. -/
def stripTagsAux : Nat → List Char → List Char
  | 0, cs => cs
  | _ + 1, [] => []
  | fuel + 1, c :: rest =>
      if c = '<' then
        match matchTag rest with
        | some r => stripTagsAux fuel r
        | none => c :: stripTagsAux fuel rest
      else c :: stripTagsAux fuel rest

/-- After a `&`, match a character entity; yields the character and the rest. -/
def matchEntity (cs : List Char) : Option (Char × List Char) :=
  match cs with
  | 'a' :: 'm' :: 'p' :: ';' :: r => some ('&', r)
  | 'l' :: 't' :: ';' :: r => some ('<', r)
  | 'g' :: 't' :: ';' :: r => some ('>', r)
  | 'q' :: 'u' :: 'o' :: 't' :: ';' :: r => some ('"', r)
  | '#' :: r =>
      match r.takeWhile Char.isDigit, r.dropWhile Char.isDigit with
      | [], _ => none
      | _ :: _, ';' :: r2 => some (Char.ofNat (digitsToNat (r.takeWhile Char.isDigit)), r2)
      | _, _ => none
  | _ => none

/-- Unescape character entities, scanning left to right. -/
def unescapeAux : Nat → List Char → List Char
  | 0, cs => cs
  | _ + 1, [] => []
  | fuel + 1, c :: rest =>
      if c = '&' then
        match matchEntity rest with
        | some (e, r) => e :: unescapeAux fuel r
        | none => c :: unescapeAux fuel rest
      else c :: unescapeAux fuel rest

/-- The description pipeline: break tags to newlines, tags removed, entities
unescaped, surrounding whitespace stripped. -/
def cleanHtml (s : String) : String :=
  let a := subBrAux s.toList.length s.toList
  let b := stripTagsAux a.length a
  String.mk (trimChars (unescapeAux b.length b))

/-! ### Normalizer (`format_product_data`, lines 225-352)

Each helper translates one block of the source method, in source order. -/

/-- Lines 241-244: titles of filter labels whose filter key is `cvet` or
`obem`, in source order; a non-dict label raises `AttributeError`. -/
def colorOrVolume : List JVal → Except PyErr (List JVal)
  | [] => .ok []
  | .obj kvs :: rest =>
      if jEqStr (pyGetD kvs "filter" .null) "cvet" || jEqStr (pyGetD kvs "filter" .null) "obem" then
        (colorOrVolume rest).map (fun ts => pyGetD kvs "title" .null :: ts)
      else colorOrVolume rest
  | _ :: _ => .error .attributeError

/-- Lines 239-246: the product name, suffixed with the comma-joined
color/volume titles when any exist. -/
def titleOf (p : List (String × JVal)) : Except PyErr JVal := do
  let title := pyGetD p "name" (.str "")
  let labels ← pyIter (pyGetD p "filter_labels" (.arr []))
  let cv ← colorOrVolume labels
  if cv.isEmpty then
    pure title
  else do
    let s ← pyJoin ", " cv
    match title with
    | .str t => pure (.str (t ++ (", " ++ s)))
    | _ => .error .typeError

/-- Lines 247-251: the price field converted with `float`, defaulting to 0
when the field is absent or the conversion raises. -/
def currentPriceOf (p : List (String × JVal)) : Rat :=
  match pyFloat (pyGetD p "price" (.int 0)) with
  | .ok q => q
  | .error _ => 0

/-- Lines 252-259: the previous price converted with `float`, falling back to
the current price when the field is absent, `None`, or the conversion
raises. -/
def originalPriceOf (p : List (String × JVal)) (current : Rat) : Rat :=
  match pyGetD p "prev_price" .null with
  | .null => current
  | v =>
      match pyFloat v with
      | .ok q => q
      | .error _ => current

/-- Lines 260-265: the discount tag, set only when
`original > current and original > 0`. -/
def saleTagOf (current original : Rat) : String :=
  if original > current ∧ original > 0 then
    "Скидка " ++ toString (pyRound ((original - current) / original * 100)) ++ "%"
  else ""

/-- Head token of the quantity string: the prefix before the first space
(`split` on a space, first element). -/
def headToken (s : String) : String :=
  String.mk (s.toList.takeWhile (fun c => c ≠ ' '))

/-- Lines 272-280: one dict store entry of the availability block; a
`ValueError`/`AttributeError` raised in the `try` body is caught, the warning
is logged, and the store contributes 0. -/
def storeCount (kvs : List (String × JVal)) : Int :=
  match pyGetD kvs "quantity" (.str "0 шт") with
  | .str q =>
      match pyIntOfString (headToken q) with
      | some n => n
      | none => 0
  | _ => 0

/-- Lines 272-280: the store loop. A dict store contributes `storeCount`.
For a non-dict store the `AttributeError` from `store.get` in the `try` body
is caught, but the warning message then evaluates `store.get` again inside
the except handler, raising an uncaught `AttributeError` that aborts the
normalization. -/
def storesLoop : List JVal → Except PyErr Int
  | [] => .ok 0
  | .obj kvs :: rest => (storesLoop rest).map (fun n => storeCount kvs + n)
  | _ :: _ => .error .attributeError

/-- Lines 266-280: `in_stock` is whether the store list is truthy; `count`
sums per-store quantities via `storesLoop`. -/
def stockOf (p : List (String × JVal)) : Except PyErr (Bool × Int) := do
  let availability := pyGetD p "availability" (.obj [])
  let stores ←
    match availability with
    | .obj akvs => pure (pyGetD akvs "stores" (.arr []))
    | _ => .error .attributeError
  if pyTruthy stores then do
    let elems ← pyIter stores
    let count ← storesLoop elems
    pure (true, count)
  else
    pure (false, 0)

/-- Lines 281-286: truthy label titles, in source order. -/
def collectMarketing : List JVal → Except PyErr (List JVal)
  | [] => .ok []
  | .obj kvs :: rest =>
      let t := pyGetD kvs "title" (.str "")
      if pyTruthy t then (collectMarketing rest).map (t :: ·) else collectMarketing rest
  | _ :: _ => .error .attributeError

/-- Lines 281-286: `marketing_tags`. -/
def marketingTagsOf (p : List (String × JVal)) : Except PyErr (List JVal) := do
  let labels ← pyIter (pyGetD p "filter_labels" (.arr []))
  collectMarketing labels

/-- Lines 287-293: scan description blocks for the first `brend` block with a
truthy `values` list; subscripting a truthy non-list fails. -/
def brandLoop : List JVal → Except PyErr JVal
  | [] => .ok (.str "")
  | .obj kvs :: rest =>
      if jEqStr (pyGetD kvs "code" .null) "brend" then
        match pyGetD kvs "values" (.arr []) with
        | .arr [] => brandLoop rest
        | .arr (v0 :: _) =>
            (match v0 with
             | .obj vk => .ok (pyGetD vk "name" (.str ""))
             | _ => .error .attributeError)
        | v => if pyTruthy v then .error .typeError else brandLoop rest
      else brandLoop rest
  | _ :: _ => .error .attributeError

/-- Lines 287-293: `brand`. -/
def brandOf (p : List (String × JVal)) : Except PyErr JVal := do
  let blocks ← pyIter (pyGetD p "description_blocks" (.arr []))
  brandLoop blocks

/-- Lines 296-299: the parent contribution to `section`: the parent name when
the parent and its name are truthy; a truthy non-dict parent raises. -/
def sectionParentOf (ckvs : List (String × JVal)) : Except PyErr (List JVal) :=
  let parent := pyGetD ckvs "parent" .null
  if pyTruthy parent then
    match parent with
    | .obj pkvs =>
        let pn := pyGetD pkvs "name" .null
        pure (if pyTruthy pn then [pn] else [])
    | _ => .error .attributeError
  else pure []

/-- Lines 294-301: parent category name then leaf category name, each appended
only when truthy; a falsy category is skipped entirely. -/
def sectionOf (p : List (String × JVal)) : Except PyErr (List JVal) := do
  let category := pyGetD p "category" (.obj [])
  if pyTruthy category then
    match category with
    | .obj ckvs => do
        let part1 ← sectionParentOf ckvs
        let cn := pyGetD ckvs "name" .null
        pure (part1 ++ (if pyTruthy cn then [cn] else []))
    | _ => .error .attributeError
  else
    pure []

/-- The `assets` sub-record (lines 302-305 and 344-349). -/
structure Assets where
  main_image : JVal
  set_images : List JVal
  view360 : List JVal
  video : List JVal

/-- Lines 302-305: `main_image` and `set_images`; `view360`/`video` are
always empty. -/
def assetsOf (p : List (String × JVal)) : Assets :=
  let mi := pyGetD p "image_url" .null
  { main_image := mi
    set_images := if pyTruthy mi then [mi] else []
    view360 := []
    video := [] }

/-- Lines 306-314: the first text block titled `Описание`, HTML-cleaned; a
non-string content raises in `re.sub`. -/
def descLoop : List JVal → Except PyErr String
  | [] => .ok ""
  | .obj kvs :: rest =>
      if jEqStr (pyGetD kvs "title" .null) "Описание" then
        match pyGetD kvs "content" (.str "") with
        | .str html => .ok (cleanHtml html)
        | _ => .error .typeError
      else descLoop rest
  | _ :: _ => .error .attributeError

/-- Lines 306-314: `description`. -/
def descriptionOf (p : List (String × JVal)) : Except PyErr String := do
  let blocks ← pyIter (pyGetD p "text_blocks" (.arr []))
  descLoop blocks

/-- `metadata[key] = value`: overwrite the first binding or append, keeping
the originally inserted key, as Python dicts do. -/
def metaSet : List (JVal × String) → JVal → String → List (JVal × String)
  | [], k, v => [(k, v)]
  | kv :: rest, k, v => if jvalBeq kv.1 k then (kv.1, v) :: rest else kv :: metaSet rest k v

/-- Lines 318-323: fold the filter labels into the metadata mapping; an
unhashable key raises `TypeError`. -/
def metadataLoop : List JVal → List (JVal × String) → Except PyErr (List (JVal × String))
  | [], m => .ok m
  | .obj kvs :: rest, m =>
      let key := pyGetD kvs "title" .null
      if pyTruthy key then
        let mk := pyOr (pyGetD kvs "filter" .null) key
        let v := pyOr (pyGetD kvs "value" .null) (pyGetD kvs "title" .null)
        if pyHashable mk then metadataLoop rest (metaSet m mk (pyStr v))
        else .error .typeError
      else metadataLoop rest m
  | _ :: _, _ => .error .attributeError

/-- Lines 315-325: the metadata mapping, seeded with the description and
extended with the labels and the vendor code. -/
def metadataOf (p : List (String × JVal)) (description : String) :
    Except PyErr (List (JVal × String)) := do
  let labels ← pyIter (pyGetD p "filter_labels" (.arr []))
  let m ← metadataLoop labels [(.str "description", description)]
  let vc := pyGetD p "vendor_code" .null
  pure (if pyTruthy vc then metaSet m (.str "Артикул") (pyStr vc) else m)

/-- The `price_data` sub-record (lines 335-339). -/
structure PriceData where
  current : Rat
  original : Rat
  sale_tag : String

/-- The `stock` sub-record (lines 340-343). -/
structure Stock where
  in_stock : Bool
  count : Int

/-- The record returned by `format_product_data` (lines 327-352). -/
structure Product where
  timestamp : Int
  RPC : JVal
  url : JVal
  title : JVal
  marketing_tags : List JVal
  brand : JVal
  sections : List JVal
  price_data : PriceData
  stock : Stock
  assets : Assets
  metadata : List (JVal × String)
  variants : Int

/-- Lines 225-352: the whole normalizer. Fallible blocks are sequenced in
source order so the first raised error propagates, as in Python. -/
def format_product_data (now : Int) (p : List (String × JVal)) : Except PyErr Product :=
  match titleOf p with
  | .error e => .error e
  | .ok title =>
  match stockOf p with
  | .error e => .error e
  | .ok stock =>
  match marketingTagsOf p with
  | .error e => .error e
  | .ok mtags =>
  match brandOf p with
  | .error e => .error e
  | .ok brand =>
  match sectionOf p with
  | .error e => .error e
  | .ok sect =>
  match descriptionOf p with
  | .error e => .error e
  | .ok ds =>
  match metadataOf p ds with
  | .error e => .error e
  | .ok md =>
      .ok { timestamp := now
            RPC := pyGetD p "uuid" .null
            url := pyGetD p "product_url" .null
            title := title
            marketing_tags := mtags
            brand := brand
            sections := sect
            price_data :=
              { current := currentPriceOf p
                original := originalPriceOf p (currentPriceOf p)
                sale_tag := saleTagOf (currentPriceOf p) (originalPriceOf p (currentPriceOf p)) }
            stock := { in_stock := stock.1, count := stock.2 }
            assets := assetsOf p
            metadata := md
            variants := 1 }

/-! ### Response handlers (`parse_total_items`, `parse_api`,
`parse_product_detail`) and the per-category pipeline.

A handler is modelled as a function from the parsed response to the list of
effects it yields; logging is not modelled. `body = none` stands for a
response whose text is not valid JSON (`json.JSONDecodeError`). -/

/-- An effect yielded by a response handler. -/
inductive SpiderAction where
  | sleepFor (secs : Int)
  | request (url : String) (dontFilter : Bool) (metaUrl : JVal)
  | item (r : Product)

/-- A detail-endpoint response as `parse_product_detail` sees it:
status, optional integral `Retry-After` header, parsed JSON body, request
url, and the `product_url` value carried in the request meta. -/
structure DetailResponse where
  status : Nat
  retryAfter : Option Int
  body : Option JVal
  url : String
  metaUrl : JVal

/-- Lines 177-223: on 429, sleep for the `Retry-After` duration (default 60)
and reissue the same request with `dont_filter=True`; otherwise extract
`results`, overwrite its `product_url` with the listing-supplied one, and
yield the formatted record.  Any exception in the `try` body is caught and
yields nothing. -/
def parse_product_detail (now : Int) (resp : DetailResponse) : List SpiderAction :=
  if resp.status = 429 then
    [.sleepFor (resp.retryAfter.getD 60), .request resp.url true resp.metaUrl]
  else
    match resp.body with
    | none => []
    | some (.obj kvs) =>
        match pyGetOpt kvs "results" with
        | none => []
        | some product =>
            if pyTruthy product then
              match product with
              | .obj pd =>
                  match format_product_data now (pyDictSet pd "product_url" resp.metaUrl) with
                  | .ok r => [.item r]
                  | .error _ => []
              | _ => []
            else []
    | some _ => []

/-- The records among the yielded effects of a handler. -/
def itemsOf (acts : List SpiderAction) : List Product :=
  acts.filterMap (fun a => match a with | .item r => some r | _ => none)

/-- The url field of each record among the yielded effects of a handler. -/
def emittedUrls (acts : List SpiderAction) : List JVal :=
  acts.filterMap (fun a => match a with | .item r => some r.url | _ => none)

/-- The listing request issued when the count probe succeeds. -/
structure ListingRequest where
  url : String

/-- Line 123-127: the listing URL requesting the whole category in one page. -/
def listingApiUrl (city slug : String) (total : JVal) : String :=
  "https://alkoteka.com/web-api/v1/product?city_uuid=" ++ city ++
    "&page=1&per_page=" ++ pyStr total ++ "&root_category_slug=" ++ slug

/-- Lines 103-135: read `meta.total` from the count probe; on a falsy or
absent total (or an unparseable body) no listing request is issued. -/
def parse_total_items (city slug : String) (body : Option JVal) : Option ListingRequest :=
  match body with
  | none => none
  | some (.obj kvs) =>
      match pyGetD kvs "meta" (.obj []) with
      | .obj mkvs =>
          let total := pyGetD mkvs "total" (.int 0)
          if pyTruthy total then some ⟨listingApiUrl city slug total⟩ else none
      | _ => none
  | some _ => none

/-- A detail request queued by `parse_api`, with its meta. -/
structure DetailRequest where
  url : String
  slug : String
  productUrl : JVal

/-- Lines 156-166: the detail-endpoint URL for one listing entry. -/
def detailApiUrl (city : String) (slug : JVal) : String :=
  "https://alkoteka.com/web-api/v1/product/" ++ pyStr slug ++ "?city_uuid=" ++ city

/-- Lines 153-166: one listing entry; entries without a truthy slug are
skipped, a non-dict entry raises and aborts the whole batch. -/
def listingEntry (city : String) (product : JVal) : Except PyErr (Option DetailRequest) :=
  match product with
  | .obj pkvs =>
      let slug := pyGetD pkvs "slug" .null
      if pyTruthy slug then
        .ok (some ⟨detailApiUrl city slug, pyStr slug, pyGetD pkvs "product_url" (.str "")⟩)
      else .ok none
  | _ => .error .attributeError

/-- Lines 137-175: the listing handler; a malformed body or a raising entry
yields no detail requests. -/
def parse_api (city : String) (body : Option JVal) : List DetailRequest :=
  match body with
  | none => []
  | some (.obj kvs) =>
      match pyGetD kvs "results" (.arr []) with
      | .arr ps =>
          match ps.mapM (listingEntry city) with
          | .ok es => es.filterMap id
          | .error _ => []
      | _ => []
  | some _ => []

/-- The detail requests a category issues, given its count-probe and listing
bodies: none at all when the count probe terminates the pipeline. -/
def categoryDetailRequests (city slug : String) (countBody listingBody : Option JVal) :
    List DetailRequest :=
  match parse_total_items city slug countBody with
  | none => []
  | some _ => parse_api city listingBody

/-- The records a category delivers to the sink, given a response for each
detail request. -/
def categoryRun (city slug : String) (now : Int) (countBody listingBody : Option JVal)
    (fetch : DetailRequest → DetailResponse) : List Product :=
  (categoryDetailRequests city slug countBody listingBody).flatMap
    (fun rq => itemsOf (parse_product_detail now (fetch rq)))

/-! ### Well-typedness of a raw product

`format_product_data` accesses attributes and iterates over several nested
fields; these boolean predicates state the shapes under which every such
access is defined.  They are the hypotheses of the amended totality claim. -/

/-- The value is a string. -/
def isStr : JVal → Bool
  | .str _ => true
  | _ => false

/-- The value is a string or `None`. -/
def isStrOrNull : JVal → Bool
  | .str _ => true
  | .null => true
  | _ => false

/-- One filter label: a dict whose `title` and `filter` are strings or
`None`, with a string `title` required when the label is a color/volume
label (those titles are joined into the product title). -/
def labelOk (fl : JVal) : Bool :=
  match fl with
  | .obj kvs =>
      isStrOrNull (pyGetD kvs "title" .null) &&
      isStrOrNull (pyGetD kvs "filter" .null) &&
      (!(jEqStr (pyGetD kvs "filter" .null) "cvet" || jEqStr (pyGetD kvs "filter" .null) "obem") ||
        isStr (pyGetD kvs "title" .null))
  | _ => false

/-- The field `filter_labels` is a list (or absent) of well-typed labels. -/
def labelsOk (p : List (String × JVal)) : Bool :=
  match pyGetD p "filter_labels" (.arr []) with
  | .arr ls => ls.all labelOk
  | _ => false

/-- A store entry on which the except handler itself does not raise: a
dict. -/
def storeOk : JVal → Bool
  | .obj _ => true
  | _ => false

/-- The field `availability` is a dict (or absent) whose `stores` is a list
(or absent) of dict entries. -/
def availabilityOk (p : List (String × JVal)) : Bool :=
  match pyGetD p "availability" (.obj []) with
  | .obj akvs =>
      match pyGetD akvs "stores" (.arr []) with
      | .arr stores => stores.all storeOk
      | _ => false
  | _ => false

/-- One description block: a dict whose `values`, when a non-empty list, has
a dict head whose `name` is a string or absent. -/
def descBlockOk (b : JVal) : Bool :=
  match b with
  | .obj kvs =>
      match pyGetD kvs "values" (.arr []) with
      | .arr [] => true
      | .arr (v0 :: _) =>
          (match v0 with
           | .obj vk => isStr (pyGetD vk "name" (.str ""))
           | _ => false)
      | _ => false
  | _ => false

/-- The field `description_blocks` is a list (or absent) of well-typed blocks. -/
def descBlocksOk (p : List (String × JVal)) : Bool :=
  match pyGetD p "description_blocks" (.arr []) with
  | .arr bs => bs.all descBlockOk
  | _ => false

/-- The field `category` is a dict (or absent, or falsy) whose `name` is a
string or `None`, and whose `parent`, when truthy, is a dict with a
string-or-`None` `name`. -/
def categoryOk (p : List (String × JVal)) : Bool :=
  match pyGetD p "category" (.obj []) with
  | .obj ckvs =>
      isStrOrNull (pyGetD ckvs "name" .null) &&
      (match pyGetD ckvs "parent" .null with
       | .obj pkvs => isStrOrNull (pyGetD pkvs "name" .null)
       | v => !pyTruthy v)
  | v => !pyTruthy v

/-- One text block: a dict whose `content` is a string (or absent) when the
block is titled `Описание`. -/
def textBlockOk (b : JVal) : Bool :=
  match b with
  | .obj kvs =>
      !(jEqStr (pyGetD kvs "title" .null) "Описание") ||
        isStr (pyGetD kvs "content" (.str ""))
  | _ => false

/-- The field `text_blocks` is a list (or absent) of well-typed blocks. -/
def textBlocksOk (p : List (String × JVal)) : Bool :=
  match pyGetD p "text_blocks" (.arr []) with
  | .arr bs => bs.all textBlockOk
  | _ => false

/-- A raw product on which every field access of the normalizer is defined:
scalar fields are strings (or null where the code tolerates it) and the
structured fields have their natural shapes. -/
def wellTypedB (p : List (String × JVal)) : Bool :=
  isStr (pyGetD p "name" (.str "")) &&
  isStrOrNull (pyGetD p "uuid" .null) &&
  isStrOrNull (pyGetD p "product_url" .null) &&
  isStrOrNull (pyGetD p "image_url" .null) &&
  labelsOk p && availabilityOk p && descBlocksOk p && categoryOk p && textBlocksOk p

/-! ### Claim-side formulations

These definitions follow the wording of the specification claims (amended
where the code refutes the original wording); the theorems relate them to
the source-translated definitions above. -/

/-- Claim C7: the base name with the comma-joined color/volume titles, the
suffix omitted when no such labels exist. -/
def claimTitle (nm : String) (ts : List String) : String :=
  if ts = [] then nm else nm ++ ", " ++ joinWith ", " ts

/-- Claim C7: the titles of the labels whose filter key is `cvet` or `obem`,
in source order; `none` when a matched label is malformed. -/
def matchedTitles : List JVal → Option (List String)
  | [] => some []
  | .obj kvs :: rest =>
      if jEqStr (pyGetD kvs "filter" .null) "cvet" || jEqStr (pyGetD kvs "filter" .null) "obem" then
        match pyGetD kvs "title" .null, matchedTitles rest with
        | .str t, some ts => some (t :: ts)
        | _, _ => none
      else matchedTitles rest
  | _ :: _ => none

/-- One name contribution to the claimed section: the name when present and
non-empty. -/
def specSectionPart : Option String → List JVal
  | some s => if s = "" then [] else [.str s]
  | none => []

/-- Claim C8 (amended): the parent name when present and non-empty, then the
leaf name when present and non-empty. -/
def specSection (pn cn : Option String) : List JVal :=
  specSectionPart pn ++ specSectionPart cn

/-- Claim C9 (amended): `set_images` holds the image URL exactly when it is
present and non-empty. -/
def specSetImages (mi : Option String) : List JVal :=
  match mi with
  | some s => if s = "" then [] else [.str s]
  | none => []

/-- An optional string as the corresponding Python value. -/
def jvalOfOptStr : Option String → JVal
  | some s => .str s
  | none => .null

/-! ### Shared lemmas -/

theorem pyGetD_pyDictSet (kvs : List (String × JVal)) (k : String) (v d : JVal) :
    pyGetD (pyDictSet kvs k v) k d = v := by
  induction kvs with
  | nil => simp [pyDictSet, pyGetD, pyGetOpt]
  | cons kv rest ih =>
      by_cases hk : kv.1 = k <;>
        simp [pyDictSet, pyGetD, pyGetOpt, hk] <;>
        simpa [pyGetD] using ih

theorem format_ok_parts (now : Int) (p : List (String × JVal)) (r : Product)
    (h : format_product_data now p = .ok r) :
    titleOf p = .ok r.title ∧
    stockOf p = .ok (r.stock.in_stock, r.stock.count) ∧
    marketingTagsOf p = .ok r.marketing_tags ∧
    brandOf p = .ok r.brand ∧
    sectionOf p = .ok r.sections ∧
    r.timestamp = now ∧
    r.RPC = pyGetD p "uuid" .null ∧
    r.url = pyGetD p "product_url" .null ∧
    r.price_data = ⟨currentPriceOf p, originalPriceOf p (currentPriceOf p),
      saleTagOf (currentPriceOf p) (originalPriceOf p (currentPriceOf p))⟩ ∧
    r.assets = assetsOf p ∧
    r.variants = 1 := by
  unfold format_product_data at h
  split at h
  · exact absurd h (by simp)
  rename_i title ht
  split at h
  · exact absurd h (by simp)
  rename_i stock hst
  split at h
  · exact absurd h (by simp)
  rename_i mtags hmt
  split at h
  · exact absurd h (by simp)
  rename_i brand hbr
  split at h
  · exact absurd h (by simp)
  rename_i sect hsec
  split at h
  · exact absurd h (by simp)
  rename_i ds hds
  split at h
  · exact absurd h (by simp)
  rename_i md hmd
  cases h
  exact ⟨ht, hst, hmt, hbr, hsec, rfl, rfl, rfl, rfl, rfl, rfl⟩

theorem saleTagOf_ne_empty (current original : Rat)
    (h : original > current ∧ original > 0) : saleTagOf current original ≠ "" := by
  intro heq
  rw [saleTagOf, if_pos h] at heq
  have hlen := congrArg String.length heq
  rw [String.length_append, String.length_append] at hlen
  have h7 : ("Скидка " : String).length = 7 := rfl
  have h0 : ("" : String).length = 0 := rfl
  omega

/-! ### C2: discount tag -/

/-- C2 (amended): `sale_tag` is non-empty iff `original > current` and
`original > 0` (the code does not require `current > 0`), and it then carries
the percentage `round((original - current) / original * 100)`. -/
theorem sale_tag_iff_discount (current original : Rat) :
    (saleTagOf current original ≠ "" ↔ (original > current ∧ original > 0)) ∧
    ((original > current ∧ original > 0) →
      saleTagOf current original =
        "Скидка " ++ toString (pyRound ((original - current) / original * 100)) ++ "%") := by
  refine ⟨⟨fun hne => ?_, fun h => saleTagOf_ne_empty current original h⟩, fun h => ?_⟩
  · by_contra hcond
    exact hne (by rw [saleTagOf, if_neg hcond])
  · rw [saleTagOf, if_pos h]

/-- Witness for C2 at `current = 50`, `original = 100`. -/
theorem sale_tag_iff_discount_witness :
    saleTagOf 50 100 ≠ "" ∧ saleTagOf 50 100 = "Скидка 50%" :=
  ⟨(sale_tag_iff_discount 50 100).1.mpr (by norm_num),
   by rw [(sale_tag_iff_discount 50 100).2 (by norm_num)]; with_unfolding_all rfl⟩

/-- C2 counterexample: with the price field absent (current price 0) and a
previous price of 100, the code emits a 100-percent discount tag although
`current > 0` fails, refuting `non-empty iff original > current > 0`. -/
theorem sale_tag_zero_current_counterexample :
    (format_product_data 0 [("prev_price", .int 100)]).map
        (fun r => (r.price_data.current, r.price_data.original, r.price_data.sale_tag)) =
      .ok (0, 100, "Скидка 100%") ∧
    ¬(("Скидка 100%" : String) ≠ "" ↔ ((100 : Rat) > 0 ∧ (0 : Rat) > 0)) := by
  constructor
  · with_unfolding_all rfl
  · with_unfolding_all decide

/-! ### C10: previous-price fallback -/

/-- C10: when `prev_price` is absent/None or does not convert to a float, the
original price equals the current price and the sale tag is empty. -/
theorem prev_price_fallback (now : Int) (p : List (String × JVal)) (r : Product)
    (h : pyGetD p "prev_price" .null = .null ∨
      ∃ e, pyFloat (pyGetD p "prev_price" .null) = .error e)
    (hr : format_product_data now p = .ok r) :
    r.price_data.original = r.price_data.current ∧ r.price_data.sale_tag = "" := by
  obtain ⟨-, -, -, -, -, -, -, -, hpd, -, -⟩ := format_ok_parts now p r hr
  have ho : originalPriceOf p (currentPriceOf p) = currentPriceOf p := by
    unfold originalPriceOf
    cases hv : pyGetD p "prev_price" .null with
    | null => rfl
    | _ =>
        rcases h with h | ⟨e, he⟩
        · rw [hv] at h; exact absurd h (by simp)
        · rw [hv] at he; simp [he]
  constructor
  · rw [hpd, ho]
  · rw [hpd]
    show saleTagOf (currentPriceOf p) (originalPriceOf p (currentPriceOf p)) = ""
    rw [ho, saleTagOf, if_neg]
    rintro ⟨hlt, -⟩
    exact lt_irrefl _ hlt

/-- Witness for C10: a product with `price = 7` and `prev_price = "abc"`. -/
theorem prev_price_fallback_witness :
    (⟨0, .null, .null, .str "", [], .str "", [], ⟨7, 7, ""⟩, ⟨false, 0⟩,
      ⟨.null, [], [], []⟩, [(.str "description", "")], 1⟩ : Product).price_data.original =
      (⟨0, .null, .null, .str "", [], .str "", [], ⟨7, 7, ""⟩, ⟨false, 0⟩,
        ⟨.null, [], [], []⟩, [(.str "description", "")], 1⟩ : Product).price_data.current ∧
    (⟨0, .null, .null, .str "", [], .str "", [], ⟨7, 7, ""⟩, ⟨false, 0⟩,
      ⟨.null, [], [], []⟩, [(.str "description", "")], 1⟩ : Product).price_data.sale_tag = "" :=
  prev_price_fallback 0 [("prev_price", .str "abc"), ("price", .int 7)] _
    (Or.inr ⟨.valueError, rfl⟩) (by with_unfolding_all rfl)

/-! ### C9: assets -/

/-- C9 (amended): `set_images` holds the image URL exactly when it is present
and non-empty (a present empty string yields an empty list); `view360` and
`video` are always empty. -/
theorem assets_images (now : Int) (p : List (String × JVal)) (mi : Option String) (r : Product)
    (h : pyGetD p "image_url" .null = jvalOfOptStr mi)
    (hr : format_product_data now p = .ok r) :
    r.assets.main_image = jvalOfOptStr mi ∧
    r.assets.set_images = specSetImages mi ∧
    r.assets.view360 = [] ∧ r.assets.video = [] := by
  obtain ⟨-, -, -, -, -, -, -, -, -, ha, -⟩ := format_ok_parts now p r hr
  rw [ha]
  unfold assetsOf
  rw [h]
  refine ⟨rfl, ?_, rfl, rfl⟩
  cases mi with
  | none => rfl
  | some s =>
      by_cases hs : s = "" <;>
        simp [jvalOfOptStr, specSetImages, pyTruthy, hs]

/-- Witness for C9 at a product with a non-empty image URL. -/
theorem assets_images_witness :
    (⟨0, .null, .null, .str "", [], .str "", [], ⟨0, 0, ""⟩, ⟨false, 0⟩,
      ⟨.str "https://img", [.str "https://img"], [], []⟩,
      [(.str "description", "")], 1⟩ : Product).assets.set_images =
        specSetImages (some "https://img") ∧
    specSetImages (some "https://img") = [.str "https://img"] :=
  ⟨(assets_images 0 [("image_url", .str "https://img")] (some "https://img") _
      rfl (by with_unfolding_all rfl)).2.1, rfl⟩

/-- C9 counterexample: a present but empty image URL yields an empty
`set_images`, not the one-element list the claim requires. -/
theorem set_images_empty_string_counterexample :
    (format_product_data 0 [("image_url", .str "")]).map
        (fun r => (r.assets.main_image, r.assets.set_images)) = .ok (.str "", []) ∧
    ([] : List JVal) ≠ [.str ""] := by
  constructor
  · with_unfolding_all rfl
  · intro h
    simpa using congrArg List.length h

/-! ### C3: emitted url -/

/-- C3 (amended): every record emitted by the detail handler carries the
listing-supplied `product_url` from the request meta — line 214 overwrites
the field carried by the detail payload unconditionally. -/
theorem emitted_url_eq_listing_url (now : Int) (resp : DetailResponse) :
    emittedUrls (parse_product_detail now resp) = [] ∨
    emittedUrls (parse_product_detail now resp) = [resp.metaUrl] := by
  unfold parse_product_detail
  split
  · exact Or.inl rfl
  split
  · exact Or.inl rfl
  case _ body v =>
    split
    · exact Or.inl rfl
    case _ product hres =>
      split
      case isTrue =>
        split
        case _ pd =>
          split
          case _ r hfmt =>
            right
            obtain ⟨-, -, -, -, -, -, -, hurl, -, -, -⟩ :=
              format_ok_parts _ _ _ hfmt
            simp [emittedUrls, hurl, pyGetD_pyDictSet]
          case _ e hfmt => exact Or.inl rfl
        all_goals exact Or.inl rfl
      case isFalse => exact Or.inl rfl
  all_goals exact Or.inl rfl

/-- C3 counterexample: the detail payload carries its own URL, the listing
meta another; the emitted record keeps the listing one, refuting that the
payload URL is authoritative when present. -/
theorem url_overwrite_counterexample :
    emittedUrls (parse_product_detail 0
      { status := 200, retryAfter := none,
        body := some (.obj [("results",
          .obj [("uuid", .str "x"), ("product_url", .str "https://alkoteka.com/d")])]),
        url := "https://alkoteka.com/api", metaUrl := .str "https://alkoteka.com/l" }) =
      [.str "https://alkoteka.com/l"] ∧
    JVal.str "https://alkoteka.com/l" ≠ .str "https://alkoteka.com/d" := by
  constructor
  · with_unfolding_all rfl
  · intro h
    have hs : ("https://alkoteka.com/l" : String) = "https://alkoteka.com/d" := by
      injection h
    exact absurd hs (by decide)

/-! ### C4: stock aggregation -/

/-- C4 (amended): with a list of dict store entries, `in_stock` is true iff
the list is non-empty, and `count` sums the per-store parsed quantities, a
missing, non-string, or unparseable quantity contributing 0 (see
`storeCount`); a non-dict entry instead aborts the normalization (see the
counterexample). -/
theorem stock_aggregation (p akvs : List (String × JVal))
    (objs : List (List (String × JVal)))
    (h1 : pyGetD p "availability" (.obj []) = .obj akvs)
    (h2 : pyGetD akvs "stores" (.arr []) = .arr (objs.map JVal.obj)) :
    stockOf p = .ok (!objs.isEmpty, (objs.map storeCount).sum) ∧
    ((!objs.isEmpty) = true ↔ objs ≠ []) := by
  constructor
  · have hloop : ∀ os : List (List (String × JVal)),
        storesLoop (os.map JVal.obj) = .ok ((os.map storeCount).sum) := by
      intro os
      induction os with
      | nil => rfl
      | cons o rest ih => simp [storesLoop, ih, Except.map]
    unfold stockOf
    rw [h1]
    simp only [h2, pure, Except.pure, bind, Except.bind]
    cases objs with
    | nil => rfl
    | cons o rest =>
        have hl := hloop (o :: rest)
        simp only [List.map_cons] at hl
        simp [pyTruthy, pyIter, pure, Except.pure, bind, Except.bind, hl]
  · cases objs <;> simp

/-- Witness for C4: two dict stores, one with quantity `6 шт`, one with an
unparseable quantity. -/
theorem stock_aggregation_witness :
    stockOf [("availability", .obj [("stores", .arr
        [.obj [("quantity", .str "6 шт")], .obj [("quantity", .str "abc")]])])] =
      .ok (true, 6) ∧
    (true = true ↔
      ([[("quantity", JVal.str "6 шт")], [("quantity", JVal.str "abc")]] :
        List (List (String × JVal))) ≠ []) :=
  stock_aggregation
    [("availability", .obj [("stores", .arr
      [.obj [("quantity", .str "6 шт")], .obj [("quantity", .str "abc")]])])]
    [("stores", .arr [.obj [("quantity", .str "6 шт")], .obj [("quantity", .str "abc")]])]
    [[("quantity", .str "6 шт")], [("quantity", .str "abc")]]
    rfl rfl

/-- C4 counterexample: with stores `[{quantity: "6 шт"}, 3]` the non-dict
entry makes the warning inside the except handler raise `AttributeError`,
aborting the whole normalization instead of contributing 0, where the claim
predicts `in_stock = true` and `count = 6`. -/
theorem stock_nondict_store_counterexample :
    stockOf [("availability", .obj [("stores", .arr
        [.obj [("quantity", .str "6 шт")], .int 3])])] = .error .attributeError ∧
    format_product_data 0 [("availability", .obj [("stores", .arr
        [.obj [("quantity", .str "6 шт")], .int 3])])] = .error .attributeError ∧
    (Except.error .attributeError : Except PyErr (Bool × Int)) ≠ .ok (true, 6) := by
  refine ⟨by with_unfolding_all rfl, by with_unfolding_all rfl, ?_⟩
  intro h
  cases h

/-! ### C5: rate-limit recovery -/

/-- C5: a 429 response makes the handler sleep for the `Retry-After` duration
(default 60) and reissue the same request with `dont_filter`; together with
the successful resubmission it yields exactly one record. -/
theorem rate_limit_retry (now now2 : Int) (resp resp2 : DetailResponse)
    (kvs pd : List (String × JVal)) (r : Product)
    (h1 : resp.status = 429)
    (h2 : resp2.status ≠ 429)
    (h3 : resp2.body = some (.obj kvs))
    (h4 : pyGetOpt kvs "results" = some (.obj pd))
    (h5 : pyTruthy (.obj pd) = true)
    (h6 : format_product_data now2 (pyDictSet pd "product_url" resp2.metaUrl) = .ok r) :
    parse_product_detail now resp =
      [.sleepFor (resp.retryAfter.getD 60), .request resp.url true resp.metaUrl] ∧
    itemsOf (parse_product_detail now resp ++ parse_product_detail now2 resp2) = [r] := by
  have hA : parse_product_detail now resp =
      [.sleepFor (resp.retryAfter.getD 60), .request resp.url true resp.metaUrl] := by
    unfold parse_product_detail
    rw [if_pos h1]
  have hB : parse_product_detail now2 resp2 = [.item r] := by
    unfold parse_product_detail
    rw [if_neg h2, h3]
    simp [h4, h5, h6]
  refine ⟨hA, ?_⟩
  rw [hA, hB]
  rfl

/-- Witness for C5: a 429 response with `Retry-After: 5` followed by a
successful fetch of a minimal payload. -/
theorem rate_limit_retry_witness :
    parse_product_detail 0
        { status := 429, retryAfter := some 5, body := none,
          url := "https://alkoteka.com/api", metaUrl := .str "m" } =
      [.sleepFor 5, .request "https://alkoteka.com/api" true (.str "m")] ∧
    itemsOf (parse_product_detail 0
        { status := 429, retryAfter := some 5, body := none,
          url := "https://alkoteka.com/api", metaUrl := .str "m" } ++
      parse_product_detail 0
        { status := 200, retryAfter := none,
          body := some (.obj [("results", .obj [("uuid", .str "i")])]),
          url := "https://alkoteka.com/api", metaUrl := .str "m" }) =
      [⟨0, .str "i", .str "m", .str "", [], .str "", [], ⟨0, 0, ""⟩, ⟨false, 0⟩,
        ⟨.null, [], [], []⟩, [(.str "description", "")], 1⟩] :=
  rate_limit_retry 0 0
    { status := 429, retryAfter := some 5, body := none,
      url := "https://alkoteka.com/api", metaUrl := .str "m" }
    { status := 200, retryAfter := none,
      body := some (.obj [("results", .obj [("uuid", .str "i")])]),
      url := "https://alkoteka.com/api", metaUrl := .str "m" }
    [("results", .obj [("uuid", .str "i")])] [("uuid", .str "i")] _
    rfl (by decide) rfl rfl rfl (by with_unfolding_all rfl)

/-! ### C6: empty category terminates the pipeline -/

/-- C6: a count probe whose `meta.total` is absent or zero yields no listing
request, no detail requests, and no records from that category. -/
theorem empty_category_terminates (city slug : String) (now : Int)
    (kvs mkvs : List (String × JVal)) (listingBody : Option JVal)
    (fetch : DetailRequest → DetailResponse)
    (h1 : pyGetD kvs "meta" (.obj []) = .obj mkvs)
    (h2 : pyGetOpt mkvs "total" = none ∨ pyGetOpt mkvs "total" = some (.int 0)) :
    parse_total_items city slug (some (.obj kvs)) = none ∧
    categoryDetailRequests city slug (some (.obj kvs)) listingBody = [] ∧
    categoryRun city slug now (some (.obj kvs)) listingBody fetch = [] := by
  have htot : pyGetD mkvs "total" (.int 0) = .int 0 := by
    rcases h2 with h | h <;> simp [pyGetD, h]
  have hnone : parse_total_items city slug (some (.obj kvs)) = none := by
    unfold parse_total_items
    simp [h1, htot, pyTruthy]
  refine ⟨hnone, ?_, ?_⟩
  · unfold categoryDetailRequests
    rw [hnone]
  · unfold categoryRun categoryDetailRequests
    rw [hnone]
    rfl

/-- Witness for C6: a count-probe body with an empty `meta` object. -/
theorem empty_category_terminates_witness :
    parse_total_items "c" "s" (some (.obj [("meta", .obj [])])) = none ∧
    categoryDetailRequests "c" "s" (some (.obj [("meta", .obj [])])) none = [] ∧
    categoryRun "c" "s" 0 (some (.obj [("meta", .obj [])])) none
      (fun _ => { status := 200, retryAfter := none, body := none, url := "", metaUrl := .null }) =
      [] :=
  empty_category_terminates "c" "s" 0 [("meta", .obj [])] [] none
    (fun _ => { status := 200, retryAfter := none, body := none, url := "", metaUrl := .null })
    rfl (Or.inl rfl)

/-! ### C7: title composition -/

theorem colorOrVolume_of_matched (ls : List JVal) (ts : List String)
    (h : matchedTitles ls = some ts) : colorOrVolume ls = .ok (ts.map JVal.str) := by
  induction ls generalizing ts with
  | nil =>
      simp [matchedTitles] at h
      subst h
      rfl
  | cons fl rest ih =>
      cases fl with
      | obj kvs =>
          unfold matchedTitles at h
          unfold colorOrVolume
          split at h
          · rename_i hm
            rw [if_pos hm]
            split at h
            · rename_i t ts2 hti hrest
              cases h
              rw [ih ts2 hrest]
              simp [hti, Except.map]
            · exact absurd h (by simp)
          · rename_i hm
            rw [if_neg hm]
            exact ih ts h
      | null => exact absurd h (by simp [matchedTitles])
      | bool b => exact absurd h (by simp [matchedTitles])
      | int n => exact absurd h (by simp [matchedTitles])
      | float q => exact absurd h (by simp [matchedTitles])
      | str s => exact absurd h (by simp [matchedTitles])
      | arr xs => exact absurd h (by simp [matchedTitles])

theorem pyJoin_map_str (sep : String) (ts : List String) :
    pyJoin sep (ts.map JVal.str) = .ok (joinWith sep ts) := by
  induction ts with
  | nil => rfl
  | cons t rest ih =>
      cases rest with
      | nil => rfl
      | cons t2 r2 =>
          simp only [List.map_cons] at ih ⊢
          unfold pyJoin
          rw [ih]
          rfl

/-- C7: the output title is the product name followed, when any `cvet`/`obem`
labels exist, by `", "` and their comma-joined titles in source order. -/
theorem title_composition (now : Int) (p : List (String × JVal)) (nm : String)
    (ls : List JVal) (ts : List String)
    (h1 : pyGetD p "name" (.str "") = .str nm)
    (h2 : pyGetD p "filter_labels" (.arr []) = .arr ls)
    (h3 : matchedTitles ls = some ts) :
    titleOf p = .ok (.str (claimTitle nm ts)) ∧
    ∀ r : Product, format_product_data now p = .ok r → r.title = .str (claimTitle nm ts) := by
  have htitle : titleOf p = .ok (.str (claimTitle nm ts)) := by
    unfold titleOf
    rw [h1, h2]
    simp only [pyIter, bind, Except.bind]
    rw [colorOrVolume_of_matched ls ts h3]
    cases ts with
    | nil => rfl
    | cons t rest =>
        simp only [List.map_cons, List.isEmpty_cons, Bool.false_eq_true, if_false]
        rw [show (JVal.str t :: rest.map JVal.str) = ((t :: rest).map JVal.str) from rfl,
          pyJoin_map_str]
        simp [claimTitle, joinWith, pure, Except.pure, bind, Except.bind]
        rw [← String.append_assoc]
  refine ⟨htitle, fun r hr => ?_⟩
  obtain ⟨ht, -⟩ := format_ok_parts now p r hr
  rw [htitle] at ht
  exact (Except.ok.inj ht).symm

/-- Witness for C7: the example from the specification. -/
theorem title_composition_witness :
    titleOf [("name", .str "Vodka"), ("filter_labels", .arr
        [.obj [("filter", .str "cvet"), ("title", .str "Red")],
         .obj [("filter", .str "obem"), ("title", .str "0.5L")]])] =
      .ok (.str "Vodka, Red, 0.5L") ∧
    claimTitle "Vodka" ["Red", "0.5L"] = "Vodka, Red, 0.5L" :=
  ⟨(title_composition 0 [("name", .str "Vodka"), ("filter_labels", .arr
        [.obj [("filter", .str "cvet"), ("title", .str "Red")],
         .obj [("filter", .str "obem"), ("title", .str "0.5L")]])]
      "Vodka"
      [.obj [("filter", .str "cvet"), ("title", .str "Red")],
       .obj [("filter", .str "obem"), ("title", .str "0.5L")]]
      ["Red", "0.5L"] rfl rfl rfl).1, rfl⟩

/-! ### C8: section extraction -/

theorem sectionParentOf_spec (ckvs : List (String × JVal)) (pn : Option String)
    (h : (pyGetD ckvs "parent" .null = .null ∧ pn = none) ∨
      ∃ pkvs, pyGetD ckvs "parent" .null = .obj pkvs ∧
        pyGetD pkvs "name" .null = jvalOfOptStr pn) :
    sectionParentOf ckvs = .ok (specSectionPart pn) := by
  unfold sectionParentOf
  rcases h with ⟨hnull, rfl⟩ | ⟨pkvs, hobj, hname⟩
  · rw [hnull]
    rfl
  · rw [hobj]
    cases pkvs with
    | nil =>
        simp [pyGetD, pyGetOpt] at hname
        cases pn with
        | none => rfl
        | some s => exact absurd hname.symm (by simp [jvalOfOptStr])
    | cons kv rest =>
        simp only [pyTruthy, List.isEmpty_cons, Bool.not_false, if_true]
        rw [hname]
        cases pn with
        | none => rfl
        | some s =>
            by_cases hs : s = "" <;>
              simp [jvalOfOptStr, pyTruthy, specSectionPart, hs, pure, Except.pure]

/-- C8 (amended): `section` is the parent name when present and non-empty,
followed by the leaf name when present and non-empty; a missing, empty, or
falsy category contributes nothing. -/
theorem section_extraction (now : Int) (p : List (String × JVal)) (r : Product)
    (ckvs : List (String × JVal)) (pn cn : Option String)
    (h1 : pyGetD p "category" (.obj []) = .obj ckvs)
    (h2 : (pyGetD ckvs "parent" .null = .null ∧ pn = none) ∨
      ∃ pkvs, pyGetD ckvs "parent" .null = .obj pkvs ∧
        pyGetD pkvs "name" .null = jvalOfOptStr pn)
    (h3 : pyGetD ckvs "name" .null = jvalOfOptStr cn)
    (hr : format_product_data now p = .ok r) :
    sectionOf p = .ok (specSection pn cn) ∧ r.sections = specSection pn cn := by
  have hleaf : (if pyTruthy (pyGetD ckvs "name" .null) then [pyGetD ckvs "name" .null] else []) =
      specSectionPart cn := by
    rw [h3]
    cases cn with
    | none => rfl
    | some s =>
        by_cases hs : s = "" <;> simp [jvalOfOptStr, pyTruthy, specSectionPart, hs]
  have hs : sectionOf p = .ok (specSection pn cn) := by
    unfold sectionOf
    rw [h1]
    cases hE : ckvs with
    | nil =>
        subst hE
        have hpn : pn = none := by
          rcases h2 with ⟨-, hp⟩ | ⟨pkvs, hobj, -⟩
          · exact hp
          · exact absurd hobj (by simp [pyGetD, pyGetOpt])
        have hcn : cn = none := by
          simp [pyGetD, pyGetOpt] at h3
          cases cn with
          | none => rfl
          | some s => exact absurd h3.symm (by simp [jvalOfOptStr])
        subst hpn
        subst hcn
        rfl
    | cons kv rest =>
        subst hE
        have hpp := sectionParentOf_spec _ pn h2
        have hcond : pyTruthy (JVal.obj (kv :: rest)) = true := by simp [pyTruthy]
        simp [hcond, bind, Except.bind, hpp, hleaf, pure, Except.pure, specSection]
  obtain ⟨-, -, -, -, hsec, -⟩ := format_ok_parts now p r hr
  rw [hs] at hsec
  exact ⟨hs, (Except.ok.inj hsec).symm⟩

/-- Witness for C8: the category example from the specification. -/
theorem section_extraction_witness :
    sectionOf [("category", .obj [("name", .str "Spirits"),
        ("parent", .obj [("name", .str "Beverages")])])] =
      .ok (specSection (some "Beverages") (some "Spirits")) ∧
    specSection (some "Beverages") (some "Spirits") = [.str "Beverages", .str "Spirits"] :=
  ⟨(section_extraction 0
      [("category", .obj [("name", .str "Spirits"), ("parent", .obj [("name", .str "Beverages")])])]
      ⟨0, .null, .null, .str "", [], .str "", [.str "Beverages", .str "Spirits"], ⟨0, 0, ""⟩,
        ⟨false, 0⟩, ⟨.null, [], [], []⟩, [(.str "description", "")], 1⟩
      [("name", .str "Spirits"), ("parent", .obj [("name", .str "Beverages")])]
      (some "Beverages") (some "Spirits") rfl
      (Or.inr ⟨[("name", .str "Beverages")], rfl, rfl⟩) rfl
      (by with_unfolding_all rfl)).1, rfl⟩

/-- C8 counterexample: a present but empty leaf name is dropped, so the
section is one element, not the `[parent, leaf]` pair the claim requires. -/
theorem section_empty_name_counterexample :
    (format_product_data 0 [("category", .obj [("name", .str ""),
        ("parent", .obj [("name", .str "Beverages")])])]).map (fun r => r.sections) =
      .ok [.str "Beverages"] ∧
    ([JVal.str "Beverages"] : List JVal) ≠ [.str "Beverages", .str ""] := by
  constructor
  · with_unfolding_all rfl
  · intro h
    simpa using congrArg List.length h

/-! ### C1: totality of the normalizer on well-typed input -/

theorem isStr_exists {v : JVal} (h : isStr v = true) : ∃ s, v = .str s := by
  cases v <;> simp_all [isStr]

theorem isStrOrNull_cases {v : JVal} (h : isStrOrNull v = true) :
    v = .null ∨ ∃ s, v = .str s := by
  cases v <;> simp_all [isStrOrNull]

theorem pyGetD_shift (kvs : List (String × JVal)) (k : String) (d1 d2 v : JVal)
    (h : pyGetD kvs k d1 = v) (hne : v ≠ d1) : pyGetD kvs k d2 = v := by
  unfold pyGetD at *
  cases ho : pyGetOpt kvs k with
  | none =>
      rw [ho] at h
      simp only [Option.getD_none] at h
      exact absurd h.symm hne
  | some w =>
      rw [ho] at h
      simp only [Option.getD_some] at h ⊢
      exact h

theorem colorOrVolume_ok (ls : List JVal) (h : ls.all labelOk = true) :
    ∃ ts : List String, colorOrVolume ls = .ok (ts.map JVal.str) := by
  induction ls with
  | nil => exact ⟨[], rfl⟩
  | cons fl rest ih =>
      rw [List.all_cons, Bool.and_eq_true] at h
      obtain ⟨hfl, hrest⟩ := h
      obtain ⟨ts, hts⟩ := ih hrest
      cases fl with
      | obj kvs =>
          unfold labelOk at hfl
          rw [Bool.and_eq_true, Bool.and_eq_true] at hfl
          obtain ⟨⟨hA, hB⟩, hC⟩ := hfl
          unfold colorOrVolume
          by_cases hm : (jEqStr (pyGetD kvs "filter" .null) "cvet" ||
              jEqStr (pyGetD kvs "filter" .null) "obem") = true
          · rw [hm] at hC
            simp only [Bool.not_true, Bool.false_or] at hC
            obtain ⟨t, ht⟩ := isStr_exists hC
            refine ⟨t :: ts, ?_⟩
            simp [hm, hts, ht, Except.map]
          · refine ⟨ts, ?_⟩
            simp [Bool.not_eq_true] at hm
            simp [hm, hts]
      | null => simp [labelOk] at hfl
      | bool b => simp [labelOk] at hfl
      | int n => simp [labelOk] at hfl
      | float q => simp [labelOk] at hfl
      | str s => simp [labelOk] at hfl
      | arr xs => simp [labelOk] at hfl

theorem titleOf_ok (p : List (String × JVal))
    (hn : isStr (pyGetD p "name" (.str "")) = true)
    (hl : labelsOk p = true) :
    ∃ s, titleOf p = .ok (.str s) := by
  obtain ⟨nm, hnm⟩ := isStr_exists hn
  unfold labelsOk at hl
  split at hl
  case _ ls heq =>
    obtain ⟨ts, hts⟩ := colorOrVolume_ok ls hl
    unfold titleOf
    rw [hnm, heq]
    simp only [pyIter, bind, Except.bind, hts]
    cases ts with
    | nil => exact ⟨nm, rfl⟩
    | cons t rest =>
        refine ⟨nm ++ (", " ++ joinWith ", " (t :: rest)), ?_⟩
        simp only [List.map_cons, List.isEmpty_cons, Bool.false_eq_true, if_false]
        rw [← List.map_cons, pyJoin_map_str]
        rfl
  case _ => exact absurd hl (by simp)

theorem storesLoop_ok (stores : List JVal) (h : stores.all storeOk = true) :
    ∃ n, storesLoop stores = .ok n := by
  induction stores with
  | nil => exact ⟨0, rfl⟩
  | cons s rest ih =>
      rw [List.all_cons, Bool.and_eq_true] at h
      obtain ⟨hs, hrest⟩ := h
      obtain ⟨n, hn⟩ := ih hrest
      cases s with
      | obj kvs => exact ⟨storeCount kvs + n, by simp [storesLoop, hn, Except.map]⟩
      | null => simp [storeOk] at hs
      | bool b => simp [storeOk] at hs
      | int m => simp [storeOk] at hs
      | float q => simp [storeOk] at hs
      | str s2 => simp [storeOk] at hs
      | arr xs => simp [storeOk] at hs

theorem stockOf_ok (p : List (String × JVal)) (h : availabilityOk p = true) :
    ∃ st, stockOf p = .ok st := by
  unfold availabilityOk at h
  split at h
  case _ akvs heq =>
    split at h
    case _ stores heq2 =>
      obtain ⟨n, hn⟩ := storesLoop_ok stores h
      unfold stockOf
      rw [heq]
      simp only [heq2, pure, Except.pure, bind, Except.bind]
      cases stores with
      | nil => exact ⟨(false, 0), rfl⟩
      | cons s rest =>
          refine ⟨(true, n), ?_⟩
          simp [pyTruthy, pyIter, pure, Except.pure, bind, Except.bind, hn]
    case _ => exact absurd h (by simp)
  case _ => exact absurd h (by simp)

theorem collectMarketing_ok (ls : List JVal) (h : ls.all labelOk = true) :
    ∃ out, collectMarketing ls = .ok out ∧ ∀ v ∈ out, ∃ s, v = .str s := by
  induction ls with
  | nil => exact ⟨[], rfl, by simp⟩
  | cons fl rest ih =>
      rw [List.all_cons, Bool.and_eq_true] at h
      obtain ⟨hfl, hrest⟩ := h
      obtain ⟨out, hout, hstr⟩ := ih hrest
      cases fl with
      | obj kvs =>
          unfold labelOk at hfl
          rw [Bool.and_eq_true, Bool.and_eq_true] at hfl
          obtain ⟨⟨hA, hB⟩, hC⟩ := hfl
          unfold collectMarketing
          by_cases htr : pyTruthy (pyGetD kvs "title" (.str "")) = true
          · have hex : ∃ s, pyGetD kvs "title" (.str "") = .str s := by
              cases ho : pyGetOpt kvs "title" with
              | none => exact ⟨"", by simp [pyGetD, ho]⟩
              | some v =>
                  have hv : pyGetD kvs "title" .null = v := by simp [pyGetD, ho]
                  have hv2 : pyGetD kvs "title" (.str "") = v := by simp [pyGetD, ho]
                  rw [hv] at hA
                  rcases isStrOrNull_cases hA with rfl | ⟨s, rfl⟩
                  · rw [hv2] at htr
                    exact absurd htr (by simp [pyTruthy])
                  · exact ⟨s, hv2⟩
            obtain ⟨s, hs⟩ := hex
            rw [hs] at htr
            refine ⟨.str s :: out, ?_, ?_⟩
            · simp [htr, hout, hs, Except.map]
            · intro v hv
              rcases List.mem_cons.mp hv with rfl | hv2
              · exact ⟨s, rfl⟩
              · exact hstr v hv2
          · refine ⟨out, ?_, hstr⟩
            simp [Bool.not_eq_true] at htr
            simp [htr, hout]
      | null => simp [labelOk] at hfl
      | bool b => simp [labelOk] at hfl
      | int n => simp [labelOk] at hfl
      | float q => simp [labelOk] at hfl
      | str s => simp [labelOk] at hfl
      | arr xs => simp [labelOk] at hfl

theorem marketingTagsOf_ok (p : List (String × JVal)) (hl : labelsOk p = true) :
    ∃ out, marketingTagsOf p = .ok out ∧ ∀ v ∈ out, ∃ s, v = .str s := by
  unfold labelsOk at hl
  split at hl
  case _ ls heq =>
    obtain ⟨out, hout, hstr⟩ := collectMarketing_ok ls hl
    refine ⟨out, ?_, hstr⟩
    unfold marketingTagsOf
    rw [heq]
    simp [pyIter, bind, Except.bind, hout]
  case _ => exact absurd hl (by simp)

theorem brandLoop_ok (bs : List JVal) (h : bs.all descBlockOk = true) :
    ∃ s, brandLoop bs = .ok (.str s) := by
  induction bs with
  | nil => exact ⟨"", rfl⟩
  | cons b rest ih =>
      rw [List.all_cons, Bool.and_eq_true] at h
      obtain ⟨hb, hrest⟩ := h
      obtain ⟨s0, hs0⟩ := ih hrest
      cases b with
      | obj kvs =>
          simp only [descBlockOk] at hb
          unfold brandLoop
          by_cases hc : jEqStr (pyGetD kvs "code" .null) "brend" = true
          · simp only [hc, if_true]
            cases hv : pyGetD kvs "values" (.arr []) with
            | arr xs =>
                simp only [hv] at hb ⊢
                cases xs with
                | nil => exact ⟨s0, hs0⟩
                | cons v0 vtail =>
                    cases v0 with
                    | obj vk =>
                        simp only at hb
                        obtain ⟨s, hs⟩ := isStr_exists hb
                        exact ⟨s, by simp [hs]⟩
                    | null => simp at hb
                    | bool b2 => simp at hb
                    | int n => simp at hb
                    | float q => simp at hb
                    | str s => simp at hb
                    | arr ys => simp at hb
            | null => simp [hv] at hb
            | bool b2 => simp [hv] at hb
            | int n => simp [hv] at hb
            | float q => simp [hv] at hb
            | str s => simp [hv] at hb
            | obj kvs2 => simp [hv] at hb
          · refine ⟨s0, ?_⟩
            simp [Bool.not_eq_true] at hc
            simp [hc, hs0]
      | null => simp [descBlockOk] at hb
      | bool b2 => simp [descBlockOk] at hb
      | int n => simp [descBlockOk] at hb
      | float q => simp [descBlockOk] at hb
      | str s => simp [descBlockOk] at hb
      | arr xs => simp [descBlockOk] at hb

theorem brandOf_ok (p : List (String × JVal)) (h : descBlocksOk p = true) :
    ∃ s, brandOf p = .ok (.str s) := by
  unfold descBlocksOk at h
  split at h
  case _ bs heq =>
    obtain ⟨s, hs⟩ := brandLoop_ok bs h
    refine ⟨s, ?_⟩
    unfold brandOf
    rw [heq]
    simp [pyIter, bind, Except.bind, hs]
  case _ => exact absurd h (by simp)

theorem descLoop_ok (bs : List JVal) (h : bs.all textBlockOk = true) :
    ∃ s, descLoop bs = .ok s := by
  induction bs with
  | nil => exact ⟨"", rfl⟩
  | cons b rest ih =>
      rw [List.all_cons, Bool.and_eq_true] at h
      obtain ⟨hb, hrest⟩ := h
      obtain ⟨s0, hs0⟩ := ih hrest
      cases b with
      | obj kvs =>
          simp only [textBlockOk] at hb
          unfold descLoop
          by_cases hc : jEqStr (pyGetD kvs "title" .null) "Описание" = true
          · rw [hc] at hb
            simp only [Bool.not_true, Bool.false_or] at hb
            obtain ⟨html, hh⟩ := isStr_exists hb
            refine ⟨cleanHtml html, ?_⟩
            simp [hc, hh]
          · refine ⟨s0, ?_⟩
            simp [Bool.not_eq_true] at hc
            simp [hc, hs0]
      | null => simp [textBlockOk] at hb
      | bool b2 => simp [textBlockOk] at hb
      | int n => simp [textBlockOk] at hb
      | float q => simp [textBlockOk] at hb
      | str s => simp [textBlockOk] at hb
      | arr xs => simp [textBlockOk] at hb

theorem descriptionOf_ok (p : List (String × JVal)) (h : textBlocksOk p = true) :
    ∃ s, descriptionOf p = .ok s := by
  unfold textBlocksOk at h
  split at h
  case _ bs heq =>
    obtain ⟨s, hs⟩ := descLoop_ok bs h
    refine ⟨s, ?_⟩
    unfold descriptionOf
    rw [heq]
    simp [pyIter, bind, Except.bind, hs]
  case _ => exact absurd h (by simp)

theorem sectionOf_ok (p : List (String × JVal)) (h : categoryOk p = true) :
    ∃ l, sectionOf p = .ok l ∧ ∀ v ∈ l, ∃ s, v = .str s := by
  unfold categoryOk at h
  split at h
  case _ ckvs heq =>
    rw [Bool.and_eq_true] at h
    obtain ⟨hn, hp⟩ := h
    unfold sectionOf
    rw [heq]
    cases hE : ckvs with
    | nil =>
        subst hE
        exact ⟨[], rfl, by simp⟩
    | cons kv rest =>
        subst hE
        have hcond : pyTruthy (JVal.obj (kv :: rest)) = true := by simp [pyTruthy]
        have hpart : ∃ l1, sectionParentOf (kv :: rest) = .ok l1 ∧ ∀ v ∈ l1, ∃ s, v = .str s := by
          unfold sectionParentOf
          split at hp
          case _ pkvs heq2 =>
              simp only [heq2]
              cases hpk : pkvs with
              | nil => exact ⟨[], rfl, by simp⟩
              | cons kv2 rest2 =>
                  subst hpk
                  have hc2 : pyTruthy (JVal.obj (kv2 :: rest2)) = true := by simp [pyTruthy]
                  simp only [hc2, if_true]
                  rcases isStrOrNull_cases hp with hnull | ⟨s, hstr⟩
                  · rw [hnull]
                    exact ⟨[], by simp [pyTruthy, pure, Except.pure], by simp⟩
                  · rw [hstr]
                    by_cases hs : s = ""
                    · subst hs
                      exact ⟨[], by simp [pyTruthy, pure, Except.pure], by simp⟩
                    · refine ⟨[.str s], by simp [pyTruthy, hs, pure, Except.pure], ?_⟩
                      intro v hv
                      rcases List.mem_singleton.mp hv with rfl
                      exact ⟨s, rfl⟩
          case _ =>
              rw [Bool.not_eq_true'] at hp
              exact ⟨[], by simp [hp, pure, Except.pure], by simp⟩
        obtain ⟨l1, hl1, hl1s⟩ := hpart
        have hleaf : ∃ l2, (if pyTruthy (pyGetD (kv :: rest) "name" .null)
            then [pyGetD (kv :: rest) "name" .null] else []) = l2 ∧
            ∀ v ∈ l2, ∃ s, v = .str s := by
          rcases isStrOrNull_cases hn with hnull | ⟨s, hstr⟩
          · rw [hnull]
            exact ⟨[], by simp [pyTruthy], by simp⟩
          · rw [hstr]
            by_cases hs : s = ""
            · subst hs
              exact ⟨[], by simp [pyTruthy], by simp⟩
            · refine ⟨[.str s], by simp [pyTruthy, hs], ?_⟩
              intro v hv
              rcases List.mem_singleton.mp hv with rfl
              exact ⟨s, rfl⟩
        obtain ⟨l2, hl2, hl2s⟩ := hleaf
        refine ⟨l1 ++ l2, ?_, ?_⟩
        · simp [hcond, bind, Except.bind, hl1, hl2, pure, Except.pure]
        · intro v hv
          rcases List.mem_append.mp hv with hv1 | hv2
          · exact hl1s v hv1
          · exact hl2s v hv2
  case _ =>
    rw [Bool.not_eq_true'] at h
    unfold sectionOf
    exact ⟨[], by simp [h, pure, Except.pure], by simp⟩

theorem metaSet_keys (m : List (JVal × String)) (k : JVal) (v : String)
    (hm : ∀ kv ∈ m, ∃ s, kv.1 = .str s) (hk : ∃ s, k = .str s) :
    ∀ kv ∈ metaSet m k v, ∃ s, kv.1 = .str s := by
  induction m with
  | nil =>
      intro kv hkv
      rcases List.mem_singleton.mp hkv with rfl
      exact hk
  | cons kv0 rest ih =>
      intro kv hkv
      unfold metaSet at hkv
      by_cases hb : jvalBeq kv0.1 k = true
      · simp only [hb, if_true] at hkv
        rcases List.mem_cons.mp hkv with rfl | h2
        · exact hm kv0 (by simp)
        · exact hm kv (List.mem_cons_of_mem _ h2)
      · simp only [hb, if_false] at hkv
        rcases List.mem_cons.mp hkv with rfl | h2
        · exact hm kv (by simp)
        · exact ih (fun kv2 h => hm kv2 (List.mem_cons_of_mem _ h)) kv h2

theorem metadataLoop_ok (ls : List JVal) (m : List (JVal × String))
    (hall : ls.all labelOk = true) (hm : ∀ kv ∈ m, ∃ s, kv.1 = .str s) :
    ∃ m2, metadataLoop ls m = .ok m2 ∧ ∀ kv ∈ m2, ∃ s, kv.1 = .str s := by
  induction ls generalizing m with
  | nil => exact ⟨m, rfl, hm⟩
  | cons fl rest ih =>
      rw [List.all_cons, Bool.and_eq_true] at hall
      obtain ⟨hfl, hrest⟩ := hall
      cases fl with
      | obj kvs =>
          unfold labelOk at hfl
          rw [Bool.and_eq_true, Bool.and_eq_true] at hfl
          obtain ⟨⟨hA, hB⟩, hC⟩ := hfl
          unfold metadataLoop
          by_cases htr : pyTruthy (pyGetD kvs "title" .null) = true
          · have hmk : ∃ s, pyOr (pyGetD kvs "filter" .null) (pyGetD kvs "title" .null) = .str s := by
              unfold pyOr
              by_cases hft : pyTruthy (pyGetD kvs "filter" .null) = true
              · simp only [hft, if_true]
                rcases isStrOrNull_cases hB with hnull | hs
                · rw [hnull] at hft
                  exact absurd hft (by simp [pyTruthy])
                · exact hs
              · simp only [hft, if_false]
                rcases isStrOrNull_cases hA with hnull | hs
                · rw [hnull] at htr
                  exact absurd htr (by simp [pyTruthy])
                · exact hs
          
            obtain ⟨sk, hsk⟩ := hmk
            have hhash : pyHashable (pyOr (pyGetD kvs "filter" .null)
                (pyGetD kvs "title" .null)) = true := by
              rw [hsk]
              rfl
            simp only [htr, if_true, hhash]
            exact ih (metaSet m _ _) hrest (metaSet_keys m _ _ hm ⟨sk, hsk⟩)
          · simp only [htr, if_false]
            exact ih m hrest hm
      | null => simp [labelOk] at hfl
      | bool b2 => simp [labelOk] at hfl
      | int n => simp [labelOk] at hfl
      | float q => simp [labelOk] at hfl
      | str s => simp [labelOk] at hfl
      | arr xs => simp [labelOk] at hfl

theorem metadataOf_ok (p : List (String × JVal)) (hl : labelsOk p = true) (ds : String) :
    ∃ md, metadataOf p ds = .ok md ∧ ∀ kv ∈ md, ∃ s, kv.1 = .str s := by
  unfold labelsOk at hl
  split at hl
  case _ ls heq =>
    have h0 : ∀ kv ∈ [((.str "description" : JVal), ds)], ∃ s, kv.1 = JVal.str s := by
      intro kv hkv
      rcases List.mem_singleton.mp hkv with rfl
      exact ⟨"description", rfl⟩
    obtain ⟨m2, hm2, hm2s⟩ := metadataLoop_ok ls _ hl h0
    refine ⟨if pyTruthy (pyGetD p "vendor_code" .null)
        then metaSet m2 (.str "Артикул") (pyStr (pyGetD p "vendor_code" .null)) else m2, ?_, ?_⟩
    · unfold metadataOf
      rw [heq]
      simp [pyIter, bind, Except.bind, hm2, pure, Except.pure]
    · by_cases hvc : pyTruthy (pyGetD p "vendor_code" .null) = true
      · simp only [hvc, if_true]
        exact metaSet_keys m2 _ _ hm2s ⟨"Артикул", rfl⟩
      · simp only [hvc, if_false]
        exact hm2s
  case _ => exact absurd hl (by simp)

/-- C1 (amended): on any raw product whose present fields are well-typed
(`wellTypedB`), the normalizer does not raise and returns a record with every
output field present and typed; absent scalar data degrades to empty string /
empty sequence / zero / false, except `RPC` (id), `url` and `main_image`,
which degrade to null. -/
theorem format_welltyped_total (now : Int) (p : List (String × JVal))
    (h : wellTypedB p = true) :
    ∃ r : Product, format_product_data now p = .ok r ∧
      (∃ s, r.title = .str s) ∧
      r.RPC = pyGetD p "uuid" .null ∧
      (r.RPC = .null ∨ ∃ s, r.RPC = .str s) ∧
      r.url = pyGetD p "product_url" .null ∧
      (r.url = .null ∨ ∃ s, r.url = .str s) ∧
      (∀ v ∈ r.marketing_tags, ∃ s, v = .str s) ∧
      (∃ s, r.brand = .str s) ∧
      (∀ v ∈ r.sections, ∃ s, v = .str s) ∧
      (r.assets.main_image = .null ∨ ∃ s, r.assets.main_image = .str s) ∧
      (∀ v ∈ r.assets.set_images, ∃ s, v = .str s) ∧
      r.assets.view360 = [] ∧ r.assets.video = [] ∧
      (∀ kv ∈ r.metadata, ∃ s, kv.1 = .str s) ∧
      r.variants = 1 := by
  unfold wellTypedB at h
  simp only [Bool.and_eq_true] at h
  obtain ⟨⟨⟨⟨⟨⟨⟨⟨hn, hu⟩, hpu⟩, him⟩, hlab⟩, hav⟩, hdb⟩, hcat⟩, htb⟩ := h
  obtain ⟨ts, ht⟩ := titleOf_ok p hn hlab
  obtain ⟨st, hst⟩ := stockOf_ok p hav
  obtain ⟨mt, hmt, hmts⟩ := marketingTagsOf_ok p hlab
  obtain ⟨br, hbr⟩ := brandOf_ok p hdb
  obtain ⟨sec, hsec, hsecs⟩ := sectionOf_ok p hcat
  obtain ⟨ds, hds⟩ := descriptionOf_ok p htb
  obtain ⟨md, hmd, hmds⟩ := metadataOf_ok p hlab ds
  have hfmt : format_product_data now p = .ok
      { timestamp := now
        RPC := pyGetD p "uuid" .null
        url := pyGetD p "product_url" .null
        title := .str ts
        marketing_tags := mt
        brand := .str br
        sections := sec
        price_data :=
          { current := currentPriceOf p
            original := originalPriceOf p (currentPriceOf p)
            sale_tag := saleTagOf (currentPriceOf p) (originalPriceOf p (currentPriceOf p)) }
        stock := { in_stock := st.1, count := st.2 }
        assets := assetsOf p
        metadata := md
        variants := 1 } := by
    unfold format_product_data
    simp only [ht, hst, hmt, hbr, hsec, hds, hmd]
  refine ⟨_, hfmt, ⟨ts, rfl⟩, rfl, ?_, rfl, ?_, hmts, ⟨br, rfl⟩, hsecs, ?_, ?_, rfl, rfl,
    hmds, rfl⟩
  · exact isStrOrNull_cases hu
  · exact isStrOrNull_cases hpu
  · exact isStrOrNull_cases him
  · show ∀ v ∈ (assetsOf p).set_images, ∃ s, v = .str s
    unfold assetsOf
    rcases isStrOrNull_cases him with hnull | ⟨s, hs⟩
    · rw [hnull]
      simp [pyTruthy]
    · rw [hs]
      by_cases hse : s = ""
      · subst hse
        simp [pyTruthy]
      · simp only [pyTruthy]
        intro v hv
        simp [hse] at hv
        exact ⟨s, hv⟩

/-- Witness for C1: a fully populated, well-typed raw product. -/
theorem format_welltyped_total_witness :
    wellTypedB [("name", .str "Vodka"), ("uuid", .str "u-1"),
      ("product_url", .str "https://alkoteka.com/p"), ("image_url", .str "https://img"),
      ("price", .str "100.5"), ("prev_price", .int 200),
      ("filter_labels", .arr [.obj [("filter", .str "cvet"), ("title", .str "Red"),
        ("value", .str "red")]]),
      ("availability", .obj [("stores", .arr [.obj [("quantity", .str "3 шт")]])]),
      ("description_blocks", .arr [.obj [("code", .str "brend"),
        ("values", .arr [.obj [("name", .str "BrandX")]])]]),
      ("category", .obj [("name", .str "Spirits"),
        ("parent", .obj [("name", .str "Beverages")])]),
      ("vendor_code", .int 123)] = true ∧
    ∃ r : Product, format_product_data 0 [("name", .str "Vodka"), ("uuid", .str "u-1"),
      ("product_url", .str "https://alkoteka.com/p"), ("image_url", .str "https://img"),
      ("price", .str "100.5"), ("prev_price", .int 200),
      ("filter_labels", .arr [.obj [("filter", .str "cvet"), ("title", .str "Red"),
        ("value", .str "red")]]),
      ("availability", .obj [("stores", .arr [.obj [("quantity", .str "3 шт")]])]),
      ("description_blocks", .arr [.obj [("code", .str "brend"),
        ("values", .arr [.obj [("name", .str "BrandX")]])]]),
      ("category", .obj [("name", .str "Spirits"),
        ("parent", .obj [("name", .str "Beverages")])]),
      ("vendor_code", .int 123)] = .ok r :=
  ⟨rfl, (format_welltyped_total 0 ([("name", .str "Vodka"), ("uuid", .str "u-1"),
      ("product_url", .str "https://alkoteka.com/p"), ("image_url", .str "https://img"),
      ("price", .str "100.5"), ("prev_price", .int 200),
      ("filter_labels", .arr [.obj [("filter", .str "cvet"), ("title", .str "Red"),
        ("value", .str "red")]]),
      ("availability", .obj [("stores", .arr [.obj [("quantity", .str "3 шт")]])]),
      ("description_blocks", .arr [.obj [("code", .str "brend"),
        ("values", .arr [.obj [("name", .str "BrandX")]])]]),
      ("category", .obj [("name", .str "Spirits"),
        ("parent", .obj [("name", .str "Beverages")])]),
      ("vendor_code", .int 123)]) rfl).imp (fun _ hr => hr.1)⟩

/-- C1 counterexample: on the empty mapping the id and url fields are null
rather than empty strings, and a wrongly-typed `filter_labels` field makes
the normalizer raise `TypeError`, refuting both the never-raises clause and
the degradation-to-empty-string clause. -/
theorem format_null_url_counterexample :
    (format_product_data 0 []).map (fun r => (r.RPC, r.url)) = .ok (.null, .null) ∧
    JVal.null ≠ JVal.str "" ∧
    format_product_data 0 [("filter_labels", .int 1)] = .error .typeError := by
  refine ⟨by with_unfolding_all rfl, ?_, by with_unfolding_all rfl⟩
  intro h
  cases h
